import Mathlib

/-!
Shallow embedding of the in-memory tabular data engine of the csv-manager
repository (`src/client/components/csv/CsvDataViewer.tsx`) and of the
server-side row-update operation (`updateCsvRow` in the operations module),
together with theorems settling the specification claims about them.

Modelling conventions:
* JS strings are Lean `String`s; `toLowerCase` is modelled character-wise by
  `Char.toLower`, and `String.prototype.includes` by an explicit substring
  scan on the character lists.
* A JS object used as a field map (`rowData`) is an association list
  `List (String × String)` with pairwise-distinct keys in insertion order;
  `rowData[k] || ''` is `getField` (a missing key and an empty-string value
  both yield `""`, exactly as the `||` fallback does) and
  `newData[k] = v` is `setField` (in-place update of an existing key,
  else append).
* `localeCompare` is modelled by the lexicographic linear order on `String`;
  JS `Array.prototype.sort` with a consistent comparator is specified to be
  stable, and a stable sort by a total preorder is extensionally unique, so
  it is embedded as `List.insertionSort` by the comparator's reflexive
  relation.
* `Array.prototype.splice` with non-negative indices is modelled by
  `List.take`/`List.drop` (which saturate exactly as splice clamps), and the
  JS value `undefined` that an out-of-range removal produces is `none` in
  `Option String`.
* Numbers that the component only ever takes non-negative integer values of
  (page numbers, indices, lengths) are `Nat`; `Math.ceil (n / 10)` on such a
  value is `(n + 10 - 1) / 10` in `Nat`.
-/

namespace CsvManager

/-- One CSV row as the viewer receives it: a stable identity and the
`rowData` field map. -/
structure CsvRow where
  id : String
  rowData : List (String × String)
deriving DecidableEq, Repr

/-- Reading `m[k] || ''` from a JS object field map. -/
def getField (m : List (String × String)) (k : String) : String :=
  (((m.find? (fun p => p.1 == k))).map Prod.snd).getD ""

/-- Writing `m[k] = v` to a JS object field map: replace the value of an
existing key in place, otherwise append the new key at the end. -/
def setField (m : List (String × String)) (k v : String) : List (String × String) :=
  if m.any (fun p => p.1 == k) then
    m.map (fun p => if p.1 == k then (p.1, v) else p)
  else m ++ [(k, v)]

/-- Character-list version of `String.prototype.startsWith`. -/
def startsWithL : List Char → List Char → Bool
  | _, [] => true
  | [], _ :: _ => false
  | a :: as, b :: bs => a == b && startsWithL as bs

/-- Character-list version of `String.prototype.includes`: does `needle`
occur as a contiguous substring of the first argument? -/
def containsL : List Char → List Char → Bool
  | [], needle => startsWithL [] needle
  | hay@(_ :: t), needle => startsWithL hay needle || containsL t needle

/-- Model of `hay.includes(needle)` on JS strings. -/
def strIncludes (hay needle : String) : Bool :=
  containsL hay.data needle.data

/-- Model of `s.toLowerCase()`. -/
def jsToLower (s : String) : String :=
  String.mk (s.data.map Char.toLower)

/-- The filter predicate of `filteredRows`: some value of the row's field map
contains the filter text, case-insensitively
(`Object.values(rowData).some(value =>
value.toLowerCase().includes(filterText.toLowerCase()))`). -/
def rowMatches (filterText : String) (row : CsvRow) : Bool :=
  (row.rowData.map Prod.snd).any
    (fun value => strIncludes (jsToLower value) (jsToLower filterText))

/-- The `filteredRows` derivation of `CsvDataViewer`
(`rows.filter(row => ...)`). -/
def applyFilter (rows : List CsvRow) (filterText : String) : List CsvRow :=
  rows.filter (rowMatches filterText)

theorem startsWithL_nil (hay : List Char) : startsWithL hay [] = true := by
  cases hay <;> rfl

theorem containsL_nil (hay : List Char) : containsL hay [] = true := by
  cases hay <;> simp [containsL, startsWithL_nil]

theorem strIncludes_empty (hay : String) : strIncludes hay "" = true := by
  simpa [strIncludes] using containsL_nil hay.data

theorem rowMatches_empty_filter {row : CsvRow} (h : row.rowData ≠ []) :
    rowMatches "" row = true := by
  have hlow : jsToLower "" = "" := rfl
  cases hrd : row.rowData with
  | nil => exact absurd hrd h
  | cons p l =>
    simp only [rowMatches, hrd, List.map_cons, List.any_cons, hlow,
      strIncludes_empty, Bool.true_or]

/-- Sort direction, `'asc' | 'desc'`. -/
inductive SortDir where
  | asc
  | desc
deriving DecidableEq, Repr

/-- The `sortConfig` state value `{ key, direction }`. -/
structure SortConfig where
  key : String
  direction : SortDir
deriving DecidableEq, Repr

/-- The sort key of a row for a given configuration:
`(row.rowData)[sortConfig.key] || ''`. -/
def sortKey (cfg : SortConfig) (row : CsvRow) : String :=
  getField row.rowData cfg.key

/-- Lexicographic comparison of character lists by code point, the model of
the total order that `localeCompare` induces: `strLeB x y` holds exactly
when `x` precedes or equals `y`. -/
def strLeB : List Char → List Char → Bool
  | [], _ => true
  | _ :: _, [] => false
  | a :: as, b :: bs =>
    if a.toNat = b.toNat then strLeB as bs else decide (a.toNat < b.toNat)

/-- Model of `a.localeCompare(b) <= 0` on JS strings. -/
def localeLe (a b : String) : Bool :=
  strLeB a.data b.data

/-- The comparator of `sortedRows` as a reflexive Boolean relation:
`sortLe cfg a b` holds exactly when the JS comparator returns a
non-positive number on `(a, b)` (ascending compares `a` to `b`,
descending compares `b` to `a`). -/
def sortLe (cfg : SortConfig) (a b : CsvRow) : Bool :=
  match cfg.direction with
  | SortDir.asc => localeLe (sortKey cfg a) (sortKey cfg b)
  | SortDir.desc => localeLe (sortKey cfg b) (sortKey cfg a)

/-- Propositional form of `sortLe`, used as the sorting relation. -/
def sortRel (cfg : SortConfig) (a b : CsvRow) : Prop :=
  sortLe cfg a b = true

instance (cfg : SortConfig) : DecidableRel (sortRel cfg) :=
  fun a b => instDecidableEqBool (sortLe cfg a b) true

theorem strLeB_refl : ∀ x : List Char, strLeB x x = true
  | [] => rfl
  | _ :: as => by simp [strLeB, strLeB_refl as]

theorem strLeB_total : ∀ x y : List Char, strLeB x y = true ∨ strLeB y x = true
  | [], _ => Or.inl rfl
  | _ :: _, [] => Or.inr rfl
  | a :: as, b :: bs => by
    by_cases hab : a.toNat = b.toNat
    · rcases strLeB_total as bs with h | h
      · exact Or.inl (by simp [strLeB, hab, h])
      · exact Or.inr (by simp [strLeB, hab.symm, h])
    · rcases Nat.lt_or_ge a.toNat b.toNat with h | h
      · exact Or.inl (by simp [strLeB, hab, h])
      · have hba : b.toNat ≠ a.toNat := fun e => hab e.symm
        have hlt : b.toNat < a.toNat := lt_of_le_of_ne h hba
        exact Or.inr (by simp [strLeB, hba, hlt])

theorem strLeB_trans :
    ∀ x y z : List Char, strLeB x y = true → strLeB y z = true → strLeB x z = true
  | [], _, _, _, _ => rfl
  | _ :: _, [], _, hxy, _ => by simp [strLeB] at hxy
  | _ :: _, _ :: _, [], _, hyz => by simp [strLeB] at hyz
  | a :: as, b :: bs, c :: cs, hxy, hyz => by
    by_cases hab : a.toNat = b.toNat <;> by_cases hbc : b.toNat = c.toNat
    · have h1 : strLeB as bs = true := by simpa [strLeB, hab] using hxy
      have h2 : strLeB bs cs = true := by simpa [strLeB, hbc] using hyz
      simp [strLeB, hab.trans hbc, strLeB_trans as bs cs h1 h2]
    · have hac : a.toNat ≠ c.toNat := hab ▸ hbc
      simp only [strLeB, if_pos hab, if_neg hbc, if_neg hac,
        decide_eq_true_eq] at hyz ⊢
      exact hab ▸ hyz
    · have hac : a.toNat ≠ c.toNat := fun e => hab (e.trans hbc.symm)
      simp only [strLeB, if_neg hab, if_pos hbc, if_neg hac,
        decide_eq_true_eq] at hxy ⊢
      exact hbc ▸ hxy
    · simp only [strLeB, if_neg hab, if_neg hbc, decide_eq_true_eq] at hxy hyz
      have hac : a.toNat ≠ c.toNat := Nat.ne_of_lt (hxy.trans hyz)
      simp only [strLeB, if_neg hac, decide_eq_true_eq]
      exact hxy.trans hyz

theorem localeLe_refl (s : String) : localeLe s s = true :=
  strLeB_refl s.data

theorem localeLe_total (s t : String) : localeLe s t = true ∨ localeLe t s = true :=
  strLeB_total s.data t.data

theorem localeLe_trans {s t u : String} (h1 : localeLe s t = true)
    (h2 : localeLe t u = true) : localeLe s u = true :=
  strLeB_trans s.data t.data u.data h1 h2

instance (cfg : SortConfig) : IsTotal CsvRow (sortRel cfg) where
  total a b := by
    unfold sortRel sortLe
    cases cfg.direction
    · exact localeLe_total _ _
    · exact (localeLe_total _ _).symm

instance (cfg : SortConfig) : IsTrans CsvRow (sortRel cfg) where
  trans a b c := by
    unfold sortRel sortLe
    cases cfg.direction
    · exact fun h h2 => localeLe_trans h h2
    · exact fun h h2 => localeLe_trans h2 h

/-- The `sortedRows` derivation: the identity without a `sortConfig`,
otherwise a stable sort of the filtered rows by the comparator
(`[...filteredRows].sort((a, b) => ...localeCompare...)`). -/
def sortedRows (filtered : List CsvRow) (cfg : Option SortConfig) : List CsvRow :=
  match cfg with
  | none => filtered
  | some c => filtered.insertionSort (sortRel c)

/-- The `handleSort` column-header click handler: same column currently
ascending flips to descending, every other invocation yields ascending on
the clicked column. -/
def handleSort (current : Option SortConfig) (column : String) : SortConfig :=
  { key := column
    direction :=
      match current with
      | some c =>
        if c.key == column && c.direction == SortDir.asc then SortDir.desc
        else SortDir.asc
      | none => SortDir.asc }

/-- The fixed page size (`rowsPerPage = 10`). -/
def rowsPerPage : Nat := 10

/-- The `paginatedRows` derivation:
`sortedRows.slice(start, start + rowsPerPage)` with
`start = (currentPage - 1) * rowsPerPage`. -/
def paginatedRows (sorted : List CsvRow) (currentPage : Nat) : List CsvRow :=
  (sorted.drop ((currentPage - 1) * rowsPerPage)).take rowsPerPage

/-- The `totalPages` value, `Math.ceil(sortedRows.length / rowsPerPage)`. -/
def totalPages (sorted : List CsvRow) : Nat :=
  (sorted.length + rowsPerPage - 1) / rowsPerPage

/-- The `handleColumnReorder` drag-and-drop handler. Elements are JS values
(`Option String`, `none` standing for `undefined`):
`splice(dragIndex, 1)` removes the element at `dragIndex` when it exists
(otherwise it removes nothing and destructuring yields `undefined`), and
`splice(dropIndex, 0, removed)` reinserts `removed` at `dropIndex`, clamped
to the end of the shortened array. -/
def handleColumnReorder (order : List (Option String)) (dragIndex dropIndex : Nat) :
    List (Option String) :=
  let removed : Option String := (order[dragIndex]?).join
  let rest : List (Option String) := order.take dragIndex ++ order.drop (dragIndex + 1)
  rest.take dropIndex ++ removed :: rest.drop dropIndex

/-- The `editingCell` state value `{ rowId, column }`. -/
structure EditingCell where
  rowId : String
  column : String
deriving DecidableEq, Repr

/-- The `handleCellSave` commit handler. Its result is the new `editingCell`
state together with the argument of the single `onRowUpdate` call, when one
is made. `updateResolves` records whether the promise returned by
`onRowUpdate` fulfills; when it rejects, the `await` raises and the
trailing `setEditingCell(null)` is skipped. -/
def handleCellSave (rows : List CsvRow) (editingCell : Option EditingCell)
    (editValue : String) (updateResolves : Bool) :
    Option EditingCell × Option (String × List (String × String)) :=
  match editingCell with
  | none => (none, none)
  | some cell =>
    match rows.find? (fun r => r.id == cell.rowId) with
    | none => (some cell, none)
    | some row =>
      let newData := setField row.rowData cell.column editValue
      (if updateResolves then none else some cell, some (cell.rowId, newData))

/-- The view state of `CsvDataViewer` that the pagination claims mention. -/
structure ViewState where
  filterText : String
  sortConfig : Option SortConfig
  currentPage : Nat
deriving DecidableEq, Repr

/-- The initial view state (`useState('')`, `useState(null)`, `useState(1)`). -/
def initialViewState : ViewState :=
  { filterText := "", sortConfig := none, currentPage := 1 }

/-- The filtered-then-sorted derivation the pagination controls read. -/
def derivedRows (rows : List CsvRow) (st : ViewState) : List CsvRow :=
  sortedRows (applyFilter rows st.filterText) st.sortConfig

/-- User events of the component that touch `filterText`, `currentPage` or
`sortConfig`. -/
inductive UiEvent where
  | setFilter (s : String)
  | clickPrevious
  | clickNext
  | clickSort (column : String)
deriving DecidableEq, Repr

/-- One step of the component's event handling: the filter input's
`onChange` sets `filterText` (and nothing else); the Previous button sets
`currentPage` to `Math.max(1, p - 1)`; the Next button sets it to
`Math.min(totalPages, p + 1)`; a header click runs `handleSort`. -/
def step (rows : List CsvRow) (st : ViewState) : UiEvent → ViewState
  | UiEvent.setFilter s => { st with filterText := s }
  | UiEvent.clickPrevious => { st with currentPage := max 1 (st.currentPage - 1) }
  | UiEvent.clickNext =>
      { st with currentPage := min (totalPages (derivedRows rows st)) (st.currentPage + 1) }
  | UiEvent.clickSort c => { st with sortConfig := some (handleSort st.sortConfig c) }

/-- The parent `CsvFile` record of a row, as `updateCsvRow` fetches it via
`include: { csvFile: true }`. -/
structure DbCsvFile where
  id : String
  userId : String
deriving DecidableEq, Repr

/-- A persisted `CsvRow` entity together with its parent file. -/
structure DbCsvRow where
  id : String
  csvFile : DbCsvFile
  rowData : List (String × String)
deriving DecidableEq, Repr

/-- The error taxonomy of the server operation: the messages thrown by
`updateCsvRow`. -/
inductive OpError where
  | notAuthorized (msg : String)
  | notFound (msg : String)
deriving DecidableEq, Repr

/-- The server operation `updateCsvRow({ rowId, newData }, context)`:
no resolved user fails with `Not authorized` before any lookup; a missing
row fails with `Row not found`; a caller that does not own the row's parent
file fails with `Not authorized to modify this row`; otherwise the row's
`rowData` is replaced by `newData` and the updated row is returned. -/
def updateCsvRow (dbRows : List DbCsvRow) (user : Option String) (rowId : String)
    (newData : List (String × String)) :
    Except OpError (List DbCsvRow × DbCsvRow) :=
  match user with
  | none => Except.error (OpError.notAuthorized "Not authorized")
  | some uid =>
    match dbRows.find? (fun r => r.id == rowId) with
    | none => Except.error (OpError.notFound "Row not found")
    | some row =>
      if row.csvFile.userId ≠ uid then
        Except.error (OpError.notAuthorized "Not authorized to modify this row")
      else
        let updated : DbCsvRow := { row with rowData := newData }
        Except.ok (dbRows.map (fun r => if r.id == rowId then updated else r), updated)

/-- C1 counterexample: on a Dataset with one row whose field map is empty,
the empty filter does not return every row of the Dataset — the row is
dropped, because `Object.values({}).some(...)` is false. -/
theorem applyFilter_empty_rowData_cex :
    applyFilter [⟨"r1", []⟩] "" = []
    ∧ applyFilter [⟨"r1", []⟩] "" ≠ [⟨"r1", []⟩] := by
  decide

/-- C1 (amended): every row returned by `applyFilter` contains at least one
column value whose lowercase form contains the lowercase filter text; for
every Dataset, the empty filter returns exactly the rows whose field map is
non-empty, unchanged and in order — a row with an empty field map is
excluded by every filter, including the empty one. -/
theorem applyFilter_spec (rows : List CsvRow) (s : String) (r : CsvRow) :
    (r ∈ applyFilter rows s →
      ∃ v ∈ r.rowData.map Prod.snd, strIncludes (jsToLower v) (jsToLower s) = true)
    ∧ applyFilter rows "" = rows.filter (fun q => !q.rowData.isEmpty) := by
  constructor
  · intro hr
    have hp : rowMatches s r = true := List.of_mem_filter hr
    simpa [rowMatches, List.any_eq_true] using hp
  · apply List.filter_congr
    intro q _
    cases hq : q.rowData with
    | nil => simp [rowMatches, hq]
    | cons p l =>
      rw [rowMatches_empty_filter (by simp [hq])]
      simp [hq]

theorem applyFilter_spec_witness :
    ((⟨"r1", [("name", "Bob")]⟩ : CsvRow) ∈ applyFilter [⟨"r1", [("name", "Bob")]⟩] "bo")
    ∧ (∃ v ∈ (CsvRow.mk "r1" [("name", "Bob")]).rowData.map Prod.snd,
        strIncludes (jsToLower v) (jsToLower "bo") = true)
    ∧ applyFilter [⟨"r1", [("name", "Bob")]⟩, ⟨"r2", []⟩] "" =
        ([⟨"r1", [("name", "Bob")]⟩, ⟨"r2", []⟩] : List CsvRow).filter
          (fun q => !q.rowData.isEmpty) :=
  ⟨by decide,
   (applyFilter_spec [⟨"r1", [("name", "Bob")]⟩] "bo" ⟨"r1", [("name", "Bob")]⟩).1 (by decide),
   (applyFilter_spec [⟨"r1", [("name", "Bob")]⟩, ⟨"r2", []⟩] ""
     ⟨"r1", [("name", "Bob")]⟩).2⟩

/-- C2 counterexample: with an active edit on a present row, committing while
the update call rejects leaves `editingCell` set — the transition to idle is
not independent of the call's success or failure. -/
theorem handleCellSave_reject_keeps_editing_cex :
    (handleCellSave [⟨"r1", [("age", "25"), ("name", "Al")]⟩]
        (some ⟨"r1", "age"⟩) "26" false).2 =
      some ("r1", [("age", "26"), ("name", "Al")])
    ∧ (handleCellSave [⟨"r1", [("age", "25"), ("name", "Al")]⟩]
        (some ⟨"r1", "age"⟩) "26" false).1 ≠ none := by
  decide

/-- C2 (amended): committing an active edit whose row id is present invokes
the row-update interface exactly once, with the row id and the row's full
field map overlaid with the pending value at the edited column; the edit
state machine returns to idle when the update call resolves, but stays in
the editing state when the call rejects (the transition happens after the
awaited call, not immediately and not independently of its outcome). -/
theorem handleCellSave_commit_spec (rows : List CsvRow) (cell : EditingCell)
    (row : CsvRow) (v : String) (b : Bool)
    (hfind : rows.find? (fun r => r.id == cell.rowId) = some row) :
    (handleCellSave rows (some cell) v b).2 =
      some (cell.rowId, setField row.rowData cell.column v)
    ∧ (handleCellSave rows (some cell) v true).1 = none
    ∧ (handleCellSave rows (some cell) v false).1 = some cell := by
  refine ⟨?_, ?_, ?_⟩ <;> simp [handleCellSave, hfind]

theorem handleCellSave_commit_spec_witness :
    ([(⟨"r1", [("age", "25"), ("name", "Al")]⟩ : CsvRow)].find?
        (fun r => r.id == "r1") = some ⟨"r1", [("age", "25"), ("name", "Al")]⟩)
    ∧ (handleCellSave [⟨"r1", [("age", "25"), ("name", "Al")]⟩]
        (some ⟨"r1", "age"⟩) "26" true).2 =
      some ("r1", setField [("age", "25"), ("name", "Al")] "age" "26")
    ∧ (handleCellSave [⟨"r1", [("age", "25"), ("name", "Al")]⟩]
        (some ⟨"r1", "age"⟩) "26" true).1 = none :=
  ⟨by decide,
   (handleCellSave_commit_spec [⟨"r1", [("age", "25"), ("name", "Al")]⟩]
     ⟨"r1", "age"⟩ ⟨"r1", [("age", "25"), ("name", "Al")]⟩ "26" true (by decide)).1,
   (handleCellSave_commit_spec [⟨"r1", [("age", "25"), ("name", "Al")]⟩]
     ⟨"r1", "age"⟩ ⟨"r1", [("age", "25"), ("name", "Al")]⟩ "26" true (by decide)).2.1⟩

/-- C6: clicking the column already sorted ascending flips it to descending,
clicking that same column again flips back to ascending (only these two
states cycle), and clicking a different column — or sorting with no active
sort configuration — always starts that column ascending. -/
theorem handleSort_toggle_spec (col col2 : String) (d : SortDir) :
    handleSort (some ⟨col, SortDir.asc⟩) col = ⟨col, SortDir.desc⟩
    ∧ handleSort (some ⟨col, SortDir.desc⟩) col = ⟨col, SortDir.asc⟩
    ∧ (col2 ≠ col → handleSort (some ⟨col, d⟩) col2 = ⟨col2, SortDir.asc⟩)
    ∧ handleSort none col = ⟨col, SortDir.asc⟩ := by
  refine ⟨by simp [handleSort], by simp [handleSort], ?_, rfl⟩
  intro hne
  have hbeq : (col == col2) = false := beq_eq_false_iff_ne.mpr fun e => hne e.symm
  simp [handleSort, hbeq]

theorem handleSort_toggle_spec_witness :
    ("age" : String) ≠ "name"
    ∧ handleSort (some ⟨"name", SortDir.asc⟩) "age" = ⟨"age", SortDir.asc⟩ :=
  ⟨by decide, (handleSort_toggle_spec "name" "age" SortDir.asc).2.2.1 (by decide)⟩

/-- C9: `updateCsvRow` fails with the not-authorized error before any data
access when no caller identity is resolved (for every database state), fails
with the not-found error when the row is absent, fails with the
not-authorized error when the caller does not own the row's parent file, and
otherwise stores the supplied field map as the row's new data and returns
the updated row. -/
theorem updateCsvRow_spec (dbRows : List DbCsvRow) (uid rowId : String)
    (newData : List (String × String)) (row : DbCsvRow) :
    updateCsvRow dbRows none rowId newData =
      Except.error (OpError.notAuthorized "Not authorized")
    ∧ (dbRows.find? (fun r => r.id == rowId) = none →
        updateCsvRow dbRows (some uid) rowId newData =
          Except.error (OpError.notFound "Row not found"))
    ∧ (dbRows.find? (fun r => r.id == rowId) = some row → row.csvFile.userId ≠ uid →
        updateCsvRow dbRows (some uid) rowId newData =
          Except.error (OpError.notAuthorized "Not authorized to modify this row"))
    ∧ (dbRows.find? (fun r => r.id == rowId) = some row → row.csvFile.userId = uid →
        updateCsvRow dbRows (some uid) rowId newData =
          Except.ok
            (dbRows.map (fun r => if r.id == rowId then { row with rowData := newData } else r),
             { row with rowData := newData })
        ∧ ({ row with rowData := newData } : DbCsvRow).rowData = newData) := by
  refine ⟨rfl, fun h => ?_, fun h hne => ?_, fun h he => ⟨?_, rfl⟩⟩
  · simp [updateCsvRow, h]
  · simp [updateCsvRow, h, hne]
  · simp [updateCsvRow, h, he]

theorem updateCsvRow_spec_witness :
    updateCsvRow [(⟨"r1", ⟨"f1", "u1"⟩, [("a", "1")]⟩ : DbCsvRow)] none "r1" [("a", "2")] =
      Except.error (OpError.notAuthorized "Not authorized")
    ∧ ([(⟨"r1", ⟨"f1", "u1"⟩, [("a", "1")]⟩ : DbCsvRow)].find? (fun r => r.id == "r1") =
        some ⟨"r1", ⟨"f1", "u1"⟩, [("a", "1")]⟩)
    ∧ updateCsvRow [(⟨"r1", ⟨"f1", "u1"⟩, [("a", "1")]⟩ : DbCsvRow)] (some "u1") "r1"
        [("a", "2")] =
      Except.ok ([⟨"r1", ⟨"f1", "u1"⟩, [("a", "2")]⟩], ⟨"r1", ⟨"f1", "u1"⟩, [("a", "2")]⟩)
    ∧ ((⟨"r1", ⟨"f1", "u1"⟩, [("a", "2")]⟩ : DbCsvRow)).rowData = [("a", "2")] :=
  ⟨(updateCsvRow_spec [⟨"r1", ⟨"f1", "u1"⟩, [("a", "1")]⟩] "u1" "r1" [("a", "2")]
      ⟨"r1", ⟨"f1", "u1"⟩, [("a", "1")]⟩).1,
   by decide,
   ((updateCsvRow_spec [⟨"r1", ⟨"f1", "u1"⟩, [("a", "1")]⟩] "u1" "r1" [("a", "2")]
      ⟨"r1", ⟨"f1", "u1"⟩, [("a", "1")]⟩).2.2.2 (by decide) rfl).1,
   ((updateCsvRow_spec [⟨"r1", ⟨"f1", "u1"⟩, [("a", "1")]⟩] "u1" "r1" [("a", "2")]
      ⟨"r1", ⟨"f1", "u1"⟩, [("a", "1")]⟩).2.2.2 (by decide) rfl).2⟩

/-- C10: committing while an edit is active but its row id is absent from
the supplied row set makes no row-update call and leaves the editing state
unchanged — `editingCell` keeps the stale edit session; committing with no
active edit is likewise a complete no-op. -/
theorem handleCellSave_noop_spec (rows : List CsvRow) (cell : EditingCell)
    (v : String) (b : Bool) :
    ((∀ r ∈ rows, r.id ≠ cell.rowId) →
      handleCellSave rows (some cell) v b = (some cell, none))
    ∧ handleCellSave rows none v b = (none, none) := by
  refine ⟨fun h => ?_, rfl⟩
  have hfind : rows.find? (fun r => r.id == cell.rowId) = none := by
    apply List.find?_eq_none.mpr
    intro r hr
    simpa using h r hr
  simp [handleCellSave, hfind]

theorem handleCellSave_noop_spec_witness :
    (∀ r ∈ [(⟨"r2", [("age", "30")]⟩ : CsvRow)], r.id ≠ "r1")
    ∧ handleCellSave [⟨"r2", [("age", "30")]⟩] (some ⟨"r1", "age"⟩) "26" true =
        (some ⟨"r1", "age"⟩, none)
    ∧ handleCellSave [⟨"r2", [("age", "30")]⟩] none "26" true = (none, none) :=
  ⟨by decide,
   (handleCellSave_noop_spec [⟨"r2", [("age", "30")]⟩] ⟨"r1", "age"⟩ "26" true).1 (by decide),
   (handleCellSave_noop_spec [⟨"r2", [("age", "30")]⟩] ⟨"r1", "age"⟩ "26" true).2⟩

/-- C3 counterexample: `totalPages` of an empty row sequence is `0`, not the
claimed minimum of `1` — `Math.ceil(0 / 10)` has no minimum applied. -/
theorem totalPages_empty_cex :
    totalPages ([] : List CsvRow) = 0 ∧ ¬ (1 ≤ totalPages ([] : List CsvRow)) := by
  decide

/-- C3 (amended): `paginate` returns exactly the slice
`[(currentPage-1)*pageSize, currentPage*pageSize)` of the sequence, and
`totalPages` is exactly the ceiling of `len(rows)/pageSize` — the least `m`
with `len(rows) ≤ m * pageSize` — with no minimum of `1`, so an empty
sequence yields `totalPages = 0`. -/
theorem paginate_spec (rows : List CsvRow) (p i : Nat) :
    ((paginatedRows rows p)[i]? =
      if i < rowsPerPage then rows[(p - 1) * rowsPerPage + i]? else none)
    ∧ rows.length ≤ totalPages rows * rowsPerPage
    ∧ (∀ m : Nat, rows.length ≤ m * rowsPerPage → totalPages rows ≤ m) := by
  refine ⟨?_, ?_, ?_⟩
  · rw [paginatedRows, List.getElem?_take, List.getElem?_drop]
  · show rows.length ≤ (rows.length + rowsPerPage - 1) / rowsPerPage * rowsPerPage
    unfold rowsPerPage
    omega
  · intro m hm
    show (rows.length + rowsPerPage - 1) / rowsPerPage ≤ m
    unfold rowsPerPage at hm ⊢
    omega

theorem paginate_spec_witness :
    ((paginatedRows [(⟨"r1", [("a", "1")]⟩ : CsvRow)] 1)[0]? =
      if 0 < rowsPerPage then [(⟨"r1", [("a", "1")]⟩ : CsvRow)][(1 - 1) * rowsPerPage + 0]?
      else none)
    ∧ ([(⟨"r1", [("a", "1")]⟩ : CsvRow)].length ≤ 1 * rowsPerPage)
    ∧ totalPages [(⟨"r1", [("a", "1")]⟩ : CsvRow)] ≤ 1 :=
  ⟨(paginate_spec [⟨"r1", [("a", "1")]⟩] 1 0).1,
   by decide,
   (paginate_spec [⟨"r1", [("a", "1")]⟩] 1 0).2.2 1 (by decide)⟩

/-- Eleven concrete rows used by the C4 counterexample: ten rows whose only
value is `"x"` and one whose only value is `"y"`. -/
def elevenRows : List CsvRow :=
  [⟨"r0", [("c", "x")]⟩, ⟨"r1", [("c", "x")]⟩, ⟨"r2", [("c", "x")]⟩,
   ⟨"r3", [("c", "x")]⟩, ⟨"r4", [("c", "x")]⟩, ⟨"r5", [("c", "x")]⟩,
   ⟨"r6", [("c", "x")]⟩, ⟨"r7", [("c", "x")]⟩, ⟨"r8", [("c", "x")]⟩,
   ⟨"r9", [("c", "x")]⟩, ⟨"r10", [("c", "y")]⟩]

/-- C4 counterexample: starting from the initial view state over eleven
rows, clicking Next reaches page 2; typing the filter text `"y"` (which
matches one row, so `totalPages` becomes 1) leaves `currentPage = 2`,
outside `[1, max(1, totalPages)]` — changing the filter text does not
re-clamp the page. -/
theorem filter_change_page_out_of_range_cex :
    ¬ ((step elevenRows (step elevenRows initialViewState UiEvent.clickNext)
          (UiEvent.setFilter "y")).currentPage ≤
        max 1 (totalPages (derivedRows elevenRows
          (step elevenRows (step elevenRows initialViewState UiEvent.clickNext)
            (UiEvent.setFilter "y"))))) := by
  decide

/-- C4 (amended): changing the filter text leaves `currentPage` unchanged
(no re-clamping after the derived row count changes), while page navigation
clamps: Previous never goes below page 1, Next never goes above
`max(1, totalPages)`, and both are no-ops at their respective boundary
(`currentPage = 1`, resp. `currentPage = totalPages`). -/
theorem currentPage_clamp_spec (rows : List CsvRow) (st : ViewState) (s : String) :
    (step rows st (UiEvent.setFilter s)).currentPage = st.currentPage
    ∧ 1 ≤ (step rows st UiEvent.clickPrevious).currentPage
    ∧ (step rows st UiEvent.clickNext).currentPage ≤
        max 1 (totalPages (derivedRows rows st))
    ∧ (st.currentPage = 1 → step rows st UiEvent.clickPrevious = st)
    ∧ (st.currentPage = totalPages (derivedRows rows st) →
        step rows st UiEvent.clickNext = st) := by
  refine ⟨rfl, ?_, ?_, ?_, ?_⟩
  · exact le_max_left 1 _
  · exact le_trans (min_le_left _ _) (le_max_right 1 _)
  · intro h
    cases st with
    | mk ft sc cp =>
      have hcp : cp = 1 := h
      subst hcp
      rfl
  · intro h
    cases st with
    | mk ft sc cp =>
      simp only [step]
      rw [← h, Nat.min_eq_left (Nat.le_succ cp)]

theorem currentPage_clamp_spec_witness :
    (step [(⟨"r1", [("a", "1")]⟩ : CsvRow)] initialViewState
        (UiEvent.setFilter "z")).currentPage = initialViewState.currentPage
    ∧ initialViewState.currentPage = 1
    ∧ step [(⟨"r1", [("a", "1")]⟩ : CsvRow)] initialViewState UiEvent.clickPrevious =
        initialViewState
    ∧ initialViewState.currentPage =
        totalPages (derivedRows [(⟨"r1", [("a", "1")]⟩ : CsvRow)] initialViewState)
    ∧ step [(⟨"r1", [("a", "1")]⟩ : CsvRow)] initialViewState UiEvent.clickNext =
        initialViewState :=
  ⟨(currentPage_clamp_spec [⟨"r1", [("a", "1")]⟩] initialViewState "z").1,
   by decide,
   (currentPage_clamp_spec [⟨"r1", [("a", "1")]⟩] initialViewState "z").2.2.2.1 (by decide),
   by decide,
   (currentPage_clamp_spec [⟨"r1", [("a", "1")]⟩] initialViewState "z").2.2.2.2 (by decide)⟩

/-- C5 counterexample: `sortedRows` is recomputed from the filtered rows on
every render, so after toggling the direction twice the sequence is the
ascending sort of the filtered rows — not the original filtered order. -/
theorem double_toggle_not_filtered_order_cex :
    handleSort (some (handleSort (some ⟨"name", SortDir.asc⟩) "name")) "name" =
      ⟨"name", SortDir.asc⟩
    ∧ sortedRows [⟨"r1", [("name", "Bob")]⟩, ⟨"r2", [("name", "Al")]⟩]
        (some ⟨"name", SortDir.asc⟩) ≠
      [⟨"r1", [("name", "Bob")]⟩, ⟨"r2", [("name", "Al")]⟩] := by
  decide

/-- C5 (amended): the sort is stable — rows whose values for the sort column
compare equal keep their relative filtered order — and idempotent after
first application: reapplying with the same configuration yields the same
sequence. Toggling the direction twice restores the sort configuration and
hence the same displayed sequence as before the toggles (the sort is always
re-derived from the filtered rows), but not the unsorted filtered order. -/
theorem applySort_stable_idempotent_spec (filtered : List CsvRow) (cfg : SortConfig)
    (a b : CsvRow) :
    (sortKey cfg a = sortKey cfg b → List.Sublist [a, b] filtered →
      List.Sublist [a, b] (sortedRows filtered (some cfg)))
    ∧ sortedRows (sortedRows filtered (some cfg)) (some cfg) =
        sortedRows filtered (some cfg)
    ∧ handleSort (some (handleSort (some cfg) cfg.key)) cfg.key = cfg
    ∧ sortedRows filtered
        (some (handleSort (some (handleSort (some cfg) cfg.key)) cfg.key)) =
      sortedRows filtered (some cfg) := by
  have htoggle : handleSort (some (handleSort (some cfg) cfg.key)) cfg.key = cfg := by
    obtain ⟨k, d⟩ := cfg
    cases d <;> simp [handleSort]
  refine ⟨?_, ?_, htoggle, by rw [htoggle]⟩
  · intro hk hsub
    have hab : sortRel cfg a b := by
      obtain ⟨k, d⟩ := cfg
      cases d <;> simp only [sortRel, sortLe] <;> rw [hk] <;> exact localeLe_refl _
    exact List.pair_sublist_insertionSort hab hsub
  · exact List.Sorted.insertionSort_eq (List.sorted_insertionSort (sortRel cfg) filtered)

theorem applySort_stable_idempotent_spec_witness :
    sortKey ⟨"name", SortDir.asc⟩ (⟨"r1", [("name", "Al")]⟩ : CsvRow) =
      sortKey ⟨"name", SortDir.asc⟩ (⟨"r2", [("name", "Al")]⟩ : CsvRow)
    ∧ List.Sublist [(⟨"r1", [("name", "Al")]⟩ : CsvRow), ⟨"r2", [("name", "Al")]⟩]
        [(⟨"r1", [("name", "Al")]⟩ : CsvRow), ⟨"r2", [("name", "Al")]⟩]
    ∧ List.Sublist [(⟨"r1", [("name", "Al")]⟩ : CsvRow), ⟨"r2", [("name", "Al")]⟩]
        (sortedRows [(⟨"r1", [("name", "Al")]⟩ : CsvRow), ⟨"r2", [("name", "Al")]⟩]
          (some ⟨"name", SortDir.asc⟩)) :=
  ⟨rfl, List.Sublist.refl _,
   (applySort_stable_idempotent_spec
      [⟨"r1", [("name", "Al")]⟩, ⟨"r2", [("name", "Al")]⟩]
      ⟨"name", SortDir.asc⟩ ⟨"r1", [("name", "Al")]⟩ ⟨"r2", [("name", "Al")]⟩).1 rfl
      (List.Sublist.refl _)⟩

theorem splice_insert_perm {α : Type} (l : List α) (p : Nat) (x : α) :
    List.Perm (l.take p ++ x :: l.drop p) (x :: l) := by
  have h := @List.perm_middle _ x (l.take p) (l.drop p)
  rwa [List.take_append_drop] at h

theorem splice_insert_eraseIdx {α : Type} :
    ∀ (p : Nat) (l : List α) (x : α),
      (l.take p ++ x :: l.drop p).eraseIdx (min p l.length) = l
  | 0, l, x => by simp
  | p + 1, [], x => by simp
  | p + 1, a :: t, x => by
    simp only [List.take_succ_cons, List.drop_succ_cons, List.length_cons,
      Nat.succ_min_succ, List.cons_append, List.eraseIdx_cons_succ]
    rw [splice_insert_eraseIdx p t x]

theorem splice_insert_getElem {α : Type} :
    ∀ (p : Nat) (l : List α) (x : α),
      (l.take p ++ x :: l.drop p)[min p l.length]? = some x
  | 0, l, x => by simp
  | p + 1, [], x => by simp
  | p + 1, a :: t, x => by
    simp only [List.take_succ_cons, List.drop_succ_cons, List.length_cons,
      Nat.succ_min_succ, List.cons_append, List.getElem?_cons_succ]
    exact splice_insert_getElem p t x

/-- C7 counterexample: with `columnOrder = ["a"]` and the invalid
`fromIndex = 5`, `reorderColumn` raises no error at all — it returns
normally, inserting an `undefined` entry, and the result is not even a
permutation of the input. -/
theorem reorderColumn_invalid_index_cex :
    handleColumnReorder [some "a"] 5 0 = [none, some "a"]
    ∧ ¬ List.Perm (handleColumnReorder [some "a"] 5 0) [some "a"] := by
  decide

/-- C7 (amended): when `fromIndex` is a valid position, `reorderColumn`
removes the element at `fromIndex` and reinserts it at `toIndex` (clamped to
the end of the shortened sequence): the result is a permutation of the
input, the moved element sits at position `min toIndex (length - 1)`, and
removing it from there recovers all other elements in their original
relative order. The engine never fails with `InvalidIndex`: indices are not
validated, and an out-of-range `fromIndex` silently inserts an `undefined`
entry instead of raising. -/
theorem reorderColumn_spec (order : List (Option String)) (f t : Nat)
    (h : f < order.length) :
    List.Perm (handleColumnReorder order f t) order
    ∧ (handleColumnReorder order f t).eraseIdx (min t (order.length - 1)) =
        order.eraseIdx f
    ∧ (handleColumnReorder order f t)[min t (order.length - 1)]? = order[f]? := by
  have hrest : order.take f ++ order.drop (f + 1) = order.eraseIdx f :=
    (List.eraseIdx_eq_take_drop_succ order f).symm
  have hx : (order[f]?).join = order[f] := by
    rw [List.getElem?_eq_getElem h]
    rfl
  have hlen : (order.eraseIdx f).length = order.length - 1 :=
    List.length_eraseIdx_of_lt h
  have key : handleColumnReorder order f t =
      (order.eraseIdx f).take t ++ order[f] :: (order.eraseIdx f).drop t := by
    simp only [handleColumnReorder]
    rw [hx, hrest]
  have hperm2 : List.Perm (order[f] :: (order.take f ++ order.drop (f + 1))) order := by
    have hmid := (@List.perm_middle _ order[f] (order.take f) (order.drop (f + 1))).symm
    rwa [List.getElem_cons_drop order f h, List.take_append_drop] at hmid
  refine ⟨?_, ?_, ?_⟩
  · rw [key]
    exact (splice_insert_perm (order.eraseIdx f) t order[f]).trans (hrest ▸ hperm2)
  · rw [key, ← hlen]
    exact splice_insert_eraseIdx t (order.eraseIdx f) order[f]
  · rw [key, ← hlen, splice_insert_getElem t (order.eraseIdx f) order[f],
      List.getElem?_eq_getElem h]

theorem reorderColumn_spec_witness :
    (0 : Nat) < ([some "a", some "b", some "c"] : List (Option String)).length
    ∧ List.Perm (handleColumnReorder [some "a", some "b", some "c"] 0 2)
        [some "a", some "b", some "c"]
    ∧ (handleColumnReorder [some "a", some "b", some "c"] 0 2).eraseIdx
        (min 2 (([some "a", some "b", some "c"] : List (Option String)).length - 1)) =
      ([some "a", some "b", some "c"] : List (Option String)).eraseIdx 0
    ∧ (handleColumnReorder [some "a", some "b", some "c"] 0 2)[min 2
        (([some "a", some "b", some "c"] : List (Option String)).length - 1)]? =
      ([some "a", some "b", some "c"] : List (Option String))[0]? :=
  ⟨by decide,
   (reorderColumn_spec [some "a", some "b", some "c"] 0 2 (by decide)).1,
   (reorderColumn_spec [some "a", some "b", some "c"] 0 2 (by decide)).2.1,
   (reorderColumn_spec [some "a", some "b", some "c"] 0 2 (by decide)).2.2⟩

/-- Auxiliary chunking argument for the pagination coverage claim, by strong
induction on the length of the row sequence. -/
theorem pages_flatten_aux :
    ∀ (n : Nat) (l : List CsvRow), l.length ≤ n →
      ((List.range (totalPages l)).map (fun i => paginatedRows l (i + 1))).flatten = l := by
  intro n
  induction n with
  | zero =>
    intro l hl
    have hnil : l = [] := List.length_eq_zero.mp (Nat.le_zero.mp hl)
    subst hnil
    rfl
  | succ n ih =>
    intro l hl
    rcases l with _ | ⟨a, t⟩
    · rfl
    · have hq : totalPages (a :: t) = totalPages ((a :: t).drop rowsPerPage) + 1 := by
        simp only [totalPages, rowsPerPage, List.length_drop, List.length_cons]
        omega
      rw [hq, List.range_succ_eq_map, List.map_cons, List.flatten_cons, List.map_map]
      have hhead : paginatedRows (a :: t) 1 = (a :: t).take rowsPerPage := by
        simp [paginatedRows]
      have htail :
          (List.range (totalPages ((a :: t).drop rowsPerPage))).map
              ((fun i => paginatedRows (a :: t) (i + 1)) ∘ Nat.succ) =
            (List.range (totalPages ((a :: t).drop rowsPerPage))).map
              (fun i => paginatedRows ((a :: t).drop rowsPerPage) (i + 1)) := by
        apply List.map_congr_left
        intro i _
        simp only [Function.comp_apply, paginatedRows, List.drop_drop]
        have harith : (Nat.succ i + 1 - 1) * rowsPerPage =
            rowsPerPage + (i + 1 - 1) * rowsPerPage := by
          simp only [rowsPerPage]
          omega
        rw [harith]
      have hrec : ((a :: t).drop rowsPerPage).length ≤ n := by
        simp only [List.length_drop, List.length_cons, rowsPerPage]
        simp only [List.length_cons] at hl
        omega
      rw [hhead, htail, ih ((a :: t).drop rowsPerPage) hrec, List.take_append_drop]

/-- C8: concatenating `paginate(rows, p, pageSize)` for `p = 1 .. totalPages`
reconstructs the full filtered/sorted row sequence exactly, with no
duplicate and no omitted row. -/
theorem pages_concat_spec (rows : List CsvRow) :
    ((List.range (totalPages rows)).map (fun i => paginatedRows rows (i + 1))).flatten =
      rows :=
  pages_flatten_aux rows.length rows le_rfl

end CsvManager
